import Mathlib

/-!
Verification development for the lead-management server.

The definitions below are a shallow embedding of `server/routes/leads.js`
(the leads router: validation chain, `buildFilterQuery`, the GET/POST/PUT
handlers and their pagination arithmetic) and `server/models/Lead.js`
(the Lead schema, in particular its unique index on `email`).
JavaScript machine-level behaviour is made explicit: `Number(...)` returns
`Option ℚ` with `none` for NaN, `new Date(...)` returns `Option Int`
(epoch milliseconds) with `none` for an Invalid Date, and JS objects are
insertion-ordered association lists.
-/

namespace LeadManagement

/-- A raw query-string value as Express delivers it: a single string, or an
array of strings when the same parameter is repeated (`?a=1&a=2`). -/
inductive RawValue where
  | str (s : String)
  | arr (l : List String)
deriving DecidableEq, Repr

/-- Numeric value of a list of decimal digit characters. -/
def decVal (cs : List Char) : Nat :=
  cs.foldl (fun acc c => acc * 10 + (c.toNat - 48)) 0

/-- JavaScript whitespace, in the forms these inputs can contain. -/
def jsWhitespace (c : Char) : Bool := c = ' ' || c = '\t' || c = '\n' || c = '\r'

/-- `s.trim()` as a character list. -/
def jsTrimmed (s : String) : List Char :=
  ((s.toList.dropWhile jsWhitespace).reverse.dropWhile jsWhitespace).reverse

/-- ASCII lowercasing of one character. -/
def lowerChar (c : Char) : Char :=
  if 65 ≤ c.toNat ∧ c.toNat ≤ 90 then Char.ofNat (c.toNat + 32) else c

/-- `s.toLowerCase()` for the ASCII strings this application stores. -/
def toLowerStr (s : String) : String := String.mk (s.toList.map lowerChar)

/-- `Number(s)` on the body of a decimal literal after the optional sign:
`digits`, `digits.digits`, `.digits` or `digits.`; anything else is NaN
(`none`).  Hex/binary/exponent forms and `Infinity`, which never occur in
this application's inputs, are modelled as NaN as well. -/
def jsNumCore (cs : List Char) : Option ℚ :=
  let ip := cs.takeWhile Char.isDigit
  let rest := cs.dropWhile Char.isDigit
  match rest with
  | [] => if ip.isEmpty then none else some (decVal ip : ℚ)
  | '.' :: frac =>
    if frac.all Char.isDigit && !(ip.isEmpty && frac.isEmpty) then
      some ((decVal ip : ℚ) + (decVal frac : ℚ) / ((10 : ℚ) ^ frac.length))
    else none
  | _ => none

/-- JavaScript `Number(value)` for a string; `none` models NaN and the
whitespace-only string coerces to `0`. -/
def jsNumber (s : String) : Option ℚ :=
  match jsTrimmed s with
  | [] => some 0
  | '+' :: cs => jsNumCore cs
  | '-' :: cs => (jsNumCore cs).map (fun q => -q)
  | cs => jsNumCore cs

/-- JavaScript `Number(value)` for a raw query value: an array is coerced
through its comma-joined string form, so only empty and one-element arrays
can yield a number. -/
def jsNumberR : RawValue → Option ℚ
  | .str s => jsNumber s
  | .arr [] => some 0
  | .arr [s] => jsNumber s
  | .arr _ => none

/-- Gregorian leap year. -/
def isLeap (y : Nat) : Bool := (y % 4 == 0 && y % 100 != 0) || y % 400 == 0

/-- Number of days of month `m` (1-based) in year `y`. -/
def daysInMonth (y m : Nat) : Nat :=
  if m = 2 then (if isLeap y then 29 else 28)
  else if m = 4 ∨ m = 6 ∨ m = 9 ∨ m = 11 then 30 else 31

/-- Days of year `y` that precede month `m` (1-based). -/
def daysBeforeMonth (y m : Nat) : Nat :=
  (List.range (m - 1)).foldl (fun acc i => acc + daysInMonth y (i + 1)) 0

/-- Leap years strictly before year `n`, counted from year 1. -/
def leapsBefore (n : Nat) : Nat := (n - 1) / 4 - (n - 1) / 100 + (n - 1) / 400

/-- Day number (days since 1970-01-01) of the Gregorian date `y-m-d`,
for years from 1 onward. -/
def rataDie (y m d : Nat) : Int :=
  ((365 * (y - 1) + leapsBefore y + daysBeforeMonth y m + (d - 1) : Nat) : Int) - 719162

/-- `new Date(s)` for a date-only ISO string `YYYY-MM-DD`: the epoch
milliseconds of that day's UTC midnight; `none` models an Invalid Date.
(JS parses date-only strings as UTC midnight.)  Strings in other formats
never occur in this application's inputs and are modelled as invalid. -/
def jsDate (s : String) : Option Int :=
  match s.toList with
  | [y1, y2, y3, y4, '-', m1, m2, '-', d1, d2] =>
    if ([y1, y2, y3, y4, m1, m2, d1, d2].all Char.isDigit) then
      let y := decVal [y1, y2, y3, y4]
      let m := decVal [m1, m2]
      let d := decVal [d1, d2]
      if 1 ≤ y ∧ 1 ≤ m ∧ m ≤ 12 ∧ 1 ≤ d ∧ d ≤ daysInMonth y m then
        some (rataDie y m d * 86400000)
      else none
    else none
  | _ => none

/-- JavaScript `new Date(value)` for a raw query value: an array is coerced
through its comma-joined string form. -/
def jsDateR : RawValue → Option Int
  | .str s => jsDate s
  | .arr [s] => jsDate s
  | .arr _ => none

/-- A primitive (non-plain-object) JavaScript value that can appear in a
compiled Mongo query: strings, numbers (`none` = NaN), Dates (`none` =
Invalid Date), booleans, arrays of strings, and the caller's ObjectId. -/
inductive Prim where
  | str (s : String)
  | num (q : Option ℚ)
  | date (ms : Option Int)
  | bool (b : Bool)
  | arr (l : List String)
  | oid (n : Nat)
deriving DecidableEq, Repr

/-- The value compiled for one query field: either a primitive (direct
equality) or a plain object of operator properties such as `$gt`,
`$regex`. -/
inductive FieldVal where
  | prim (p : Prim)
  | obj (props : List (String × Prim))
deriving DecidableEq, Repr

/-- A compiled Mongo query: a JS object, i.e. an insertion-ordered
association list from field name to value. -/
abbrev Query := List (String × FieldVal)

/-- The primitive a raw query value denotes when stored directly. -/
def RawValue.toPrim : RawValue → Prim
  | .str s => .str s
  | .arr l => .arr l

/-- `o[k] = v` on a JS object modelled as an insertion-ordered association
list: overwrite in place, or append a new key. -/
def setEntry {α : Type} : List (String × α) → String → α → List (String × α)
  | [], k, v => [(k, v)]
  | (k', v') :: q, k, v =>
    if k' = k then (k, v) :: q else (k', v') :: setEntry q k v

/-- `o[k]` on a JS object; `none` models `undefined`. -/
def getEntry {α : Type} : List (String × α) → String → Option α
  | [], _ => none
  | (k', v) :: q, k => if k' = k then some v else getEntry q k

/-- JavaScript truthiness of `query[field]`; `none` is an absent key
(`undefined`, falsy).  Objects — including `{}`, arrays, Dates and
ObjectIds — are always truthy; `""`, `0`, NaN and `false` are falsy. -/
def jsTruthy : Option FieldVal → Bool
  | none => false
  | some (.obj _) => true
  | some (.prim (.str s)) => s != ""
  | some (.prim (.num none)) => false
  | some (.prim (.num (some q))) => q != 0
  | some (.prim (.date _)) => true
  | some (.prim (.bool b)) => b
  | some (.prim (.arr _)) => true
  | some (.prim (.oid _)) => true

/-- JavaScript `s.split(sep)` for a one-character separator, acting on the
character list of `s`; the result is always nonempty. -/
def splitOnChar (sep : Char) : List Char → List (List Char)
  | [] => [[]]
  | c :: cs =>
    if c = sep then [] :: splitOnChar sep cs
    else (c :: (splitOnChar sep cs).headD []) :: (splitOnChar sep cs).tail

/-- `target.$p = v` for a value already stored under a query field.  A plain
object gains or overwrites the property.  In an ES module (strict mode) the
same assignment on a string, number or boolean primitive throws a
TypeError, modelled by `.error ()`.  On the remaining object-like values
(arrays, Dates, ObjectIds) the assignment succeeds but the added property
is dropped by BSON serialization, so the stored value is unchanged. -/
def setProp : FieldVal → String → Prim → Except Unit FieldVal
  | .obj props, p, v => .ok (.obj (setEntry props p v))
  | .prim (.str _), _, _ => .error ()
  | .prim (.num _), _, _ => .error ()
  | .prim (.bool _), _, _ => .error ()
  | .prim pr, _, _ => .ok (.prim pr)

/-- `query[field].$p = v` (used by the gt/lt/between/before/after cases).
When the field is absent the preceding truthiness guard has always placed
`{}` there, so the `none` branch is unreachable; it is given the same
effect for totality. -/
def setFieldProp (q : Query) (field p : String) (v : Prim) : Except Unit Query :=
  match getEntry q field with
  | some fv => (setProp fv p v).map (fun fv2 => setEntry q field fv2)
  | none => .ok (setEntry q field (.obj [(p, v)]))

/-- The body of the `Object.keys(filters).forEach` loop in
`buildFilterQuery` (routes/leads.js lines 79–127), for one filter key. -/
def applyFilter (q : Query) (key : String) (value : RawValue) : Except Unit Query :=
  if '_' ∈ key.toList then
    let parts := splitOnChar '_' key.toList
    let field := String.mk (parts.headD [])
    let operator := String.mk (parts.getD 1 [])
    let q1 := if jsTruthy (getEntry q field) then q else setEntry q field (.obj [])
    match operator with
    | "equals" => .ok (setEntry q1 field (.prim value.toPrim))
    | "contains" =>
      .ok (setEntry q1 field (.obj [("$regex", value.toPrim), ("$options", .str "i")]))
    | "in" =>
      let l := match value with | .arr l => l | .str s => [s]
      .ok (setEntry q1 field (.obj [("$in", .arr l)]))
    | "gt" => setFieldProp q1 field "$gt" (.num (jsNumberR value))
    | "lt" => setFieldProp q1 field "$lt" (.num (jsNumberR value))
    | "between" =>
      match value with
      | .arr [a, b] => do
        let q2 ← setFieldProp q1 field "$gte" (.num (jsNumber a))
        setFieldProp q2 field "$lte" (.num (jsNumber b))
      | _ => .ok q1
    | "before" => setFieldProp q1 field "$lt" (.date (jsDateR value))
    | "after" => setFieldProp q1 field "$gt" (.date (jsDateR value))
    | "on" =>
      let start := jsDateR value
      .ok (setEntry q1 field
        (.obj [("$gte", .date start), ("$lte", .date (start.map (fun t => t + 86399999)))]))
    | _ => .ok q1
  else
    if key = "status" ∨ key = "source" ∨ key = "is_qualified" then
      .ok (setEntry q key (.prim value.toPrim))
    else .ok q

/-- `buildFilterQuery(filters, userId)` (routes/leads.js lines 76–130).
`filters` is the insertion-ordered list of query-string parameters with
`page` and `limit` already removed.  The `.error` case models the
strict-mode TypeError that a property assignment on a primitive raises
(the route's catch-all turns it into a 500 response). -/
def buildFilterQuery (filters : List (String × RawValue)) (userId : Nat) :
    Except Unit Query :=
  filters.foldlM (fun q kv => applyFilter q kv.1 kv.2)
    [("user_id", .prim (.oid userId))]

/-- The lead request body as the validation chain sees it: each field either
absent (`none`, i.e. `undefined`) or present with the string form that
express-validator hands to validator.js. -/
structure LeadPayload where
  first_name : Option String := none
  last_name : Option String := none
  email : Option String := none
  phone : Option String := none
  company : Option String := none
  city : Option String := none
  state : Option String := none
  source : Option String := none
  status : Option String := none
  score : Option String := none
  lead_value : Option String := none
  is_qualified : Option String := none
  last_activity_at : Option String := none
deriving DecidableEq, Repr

/-- The string a non-optional validator receives: an absent field is coerced
to the empty string. -/
def vStr (v : Option String) : String := v.getD ""

/-- One required-string chain `body(f).trim().notEmpty().isLength({max})`:
the trim sanitizer runs first, then each failing validator contributes its
message. -/
def requiredTrimmed (v : Option String) (maxLen : Nat)
    (emptyMsg lenMsg : String) : List String :=
  let x := jsTrimmed (vStr v)
  (if x.isEmpty then [emptyMsg] else []) ++
    (if maxLen < x.length then [lenMsg] else [])

/-- Simplified model of validator.js `isEmail`, adequate for every value this
development evaluates: exactly one `@`, a nonempty local part, a domain
containing a dot and not starting or ending with one, and no spaces. -/
def isEmailB (s : String) : Bool :=
  match splitOnChar '@' s.toList with
  | [lp, dom] =>
    !lp.isEmpty && !dom.isEmpty && dom.contains '.' &&
      !(s.toList.contains ' ') && dom.headD ' ' != '.' && dom.getLastD ' ' != '.'
  | _ => false

/-- The `normalizeEmail()` sanitizer; lowercasing is the only behaviour the
addresses evaluated here exercise (no gmail-specific rewriting). -/
def normalizeEmail (s : String) : String := toLowerStr s

/-- The phone regex `^[\+]?[1-9][\d]{0,15}$` of routes/leads.js line 30. -/
def phoneOk (s : String) : Bool :=
  let cs := match s.toList with
    | '+' :: rest => rest
    | cs => cs
  match cs with
  | c :: rest => ('1' ≤ c && c ≤ '9') && rest.all Char.isDigit && rest.length ≤ 15
  | [] => false

/-- A nonempty all-digit character list, with its value. -/
def natDigits (cs : List Char) : Option Nat :=
  if cs ≠ [] ∧ cs.all Char.isDigit then some (decVal cs) else none

/-- validator.js `isInt`: an optionally signed run of digits. -/
def parseIntStrict (s : String) : Option Int :=
  match s.toList with
  | '+' :: cs => (natDigits cs).map (fun n => (n : Int))
  | '-' :: cs => (natDigits cs).map (fun n => -(n : Int))
  | cs => (natDigits cs).map (fun n => (n : Int))

/-- validator.js `isInt({min, max})`. -/
def isIntRange (s : String) (lo hi : Int) : Bool :=
  match parseIntStrict s with
  | some n => lo ≤ n && n ≤ hi
  | none => false

/-- validator.js `isFloat`: an optionally signed decimal literal (the empty
string is not a float). -/
def parseFloatStrict (s : String) : Option ℚ :=
  match s.toList with
  | [] => none
  | '+' :: cs => jsNumCore cs
  | '-' :: cs => (jsNumCore cs).map (fun q => -q)
  | cs => jsNumCore cs

/-- The allowed `source` values (routes/leads.js line 51). -/
def sourceValues : List String :=
  ["website", "facebook_ads", "google_ads", "referral", "events", "other"]

/-- The allowed `status` values (routes/leads.js line 55). -/
def statusValues : List String := ["new", "contacted", "qualified", "lost", "won"]

/-- `validationResult(req)` messages for the `leadValidation` chain
(routes/leads.js lines 12–73).  The same chain guards both POST / and
PUT /:id.  `.optional()` skips a chain only when the field is absent;
non-optional chains coerce an absent field to `""` and fail.
`isISO8601` is modelled by date-only parseability, the only form these
payloads use. -/
def leadValidationErrors (p : LeadPayload) : List String :=
  requiredTrimmed p.first_name 50 "First name is required"
      "First name cannot exceed 50 characters" ++
  requiredTrimmed p.last_name 50 "Last name is required"
      "Last name cannot exceed 50 characters" ++
  (if isEmailB (vStr p.email) then [] else ["Please enter a valid email"]) ++
  (if phoneOk (vStr p.phone) then [] else ["Please enter a valid phone number"]) ++
  requiredTrimmed p.company 100 "Company name is required"
      "Company name cannot exceed 100 characters" ++
  requiredTrimmed p.city 50 "City is required" "City cannot exceed 50 characters" ++
  requiredTrimmed p.state 50 "State is required" "State cannot exceed 50 characters" ++
  (if (vStr p.source) ∈ sourceValues then [] else ["Invalid source value"]) ++
  (match p.status with
    | none => []
    | some s => if s ∈ statusValues then [] else ["Invalid status value"]) ++
  (match p.score with
    | none => []
    | some s => if isIntRange s 0 100 then [] else ["Score must be between 0 and 100"]) ++
  (match p.lead_value with
    | none => []
    | some s =>
      if (parseFloatStrict s).any (fun q => 0 ≤ q) then []
      else ["Lead value cannot be negative"]) ++
  (match p.is_qualified with
    | none => []
    | some s =>
      if s ∈ ["true", "false", "0", "1"] then []
      else ["is_qualified must be a boolean"]) ++
  (match p.last_activity_at with
    | none => []
    | some s => if (jsDate s).isSome then [] else ["Invalid date format for last_activity_at"])

/-- A persisted lead document.  Only `_id` (`id`), `user_id` and `email`
take part in any route logic — the pre-checks and the `unique: true`
index on `email` declared in models/Lead.js line 19 (an index on `email`
alone, not on the `(user_id, email)` pair).  The remaining validated
fields are carried opaquely as the payload they were last written from. -/
structure Lead where
  id : Nat
  user_id : Nat
  email : String
  rest : LeadPayload
deriving DecidableEq, Repr

/-- `lead.save()` for a new document: MongoDB enforces the schema's unique
index on `email` across ALL users and raises driver error code 11000 on a
collision; otherwise the document is appended. -/
def saveLead (store : List Lead) (l : Lead) : Except Nat (List Lead) :=
  if store.any (fun x => x.email = l.email) then .error 11000
  else .ok (store ++ [l])

/-- The observable outcome of a write route: HTTP status class, user-visible
message, and the resulting store where a write happened. -/
inductive WriteResult where
  | validationFailed (errors : List String)
  | duplicate (message : String)
  | notFound (message : String)
  | serverError (message : String)
  | created (store : List Lead) (l : Lead)
  | updated (store : List Lead) (l : Lead)
deriving DecidableEq, Repr

/-- `router.post('/')` (routes/leads.js lines 233–285): validation, the
owner-scoped duplicate pre-check (`findOne({email, user_id})`, lines
245–248), then `save()`; a storage error with `code === 11000` is mapped
to the same duplicate response (lines 274–279).  `newId` stands for the
ObjectId Mongo assigns. -/
def postLeads (store : List Lead) (userId newId : Nat) (body : LeadPayload) :
    WriteResult :=
  let errors := leadValidationErrors body
  if errors ≠ [] then .validationFailed errors
  else
    let email := normalizeEmail (vStr body.email)
    match store.find? (fun (l : Lead) => l.email = email && l.user_id = userId) with
    | some _ => .duplicate "A lead with this email already exists"
    | none =>
      let lead : Lead := { id := newId, user_id := userId, email := email, rest := body }
      match saveLead store lead with
      | .error code =>
        if code = 11000 then .duplicate "A lead with this email already exists"
        else .serverError "Unable to create lead"
      | .ok s2 => .created s2 lead

/-- `{...req.body}` merge semantics of `findOneAndUpdate`: a field present in
the update document replaces the stored one, an absent field is left
unchanged. -/
def mergePayload (o p : LeadPayload) : LeadPayload :=
  { first_name := p.first_name <|> o.first_name
    last_name := p.last_name <|> o.last_name
    email := p.email <|> o.email
    phone := p.phone <|> o.phone
    company := p.company <|> o.company
    city := p.city <|> o.city
    state := p.state <|> o.state
    source := p.source <|> o.source
    status := p.status <|> o.status
    score := p.score <|> o.score
    lead_value := p.lead_value <|> o.lead_value
    is_qualified := p.is_qualified <|> o.is_qualified
    last_activity_at := p.last_activity_at <|> o.last_activity_at }

/-- `router.put('/:id')` (routes/leads.js lines 288–352): the same
`leadValidation` chain as POST, then — only when `req.body.email` is
truthy — the pre-check excluding the lead itself
(`findOne({email, user_id, _id: {$ne: id}})`, lines 300–313, message
"Another lead with this email already exists"), then `findOneAndUpdate`
scoped to `{_id, user_id}`; a unique-index violation at that write is
caught as `code === 11000` and answered with
"A lead with this email already exists" (lines 341–346). -/
def putLeads (store : List Lead) (userId leadId : Nat) (body : LeadPayload) :
    WriteResult :=
  let errors := leadValidationErrors body
  if errors ≠ [] then .validationFailed errors
  else
    let emailOpt := body.email.map normalizeEmail
    let pre :=
      match emailOpt with
      | some e =>
        if e ≠ "" then
          store.find? (fun (l : Lead) => l.email = e && l.user_id = userId && l.id ≠ leadId)
        else none
      | none => none
    match pre with
    | some _ => .duplicate "Another lead with this email already exists"
    | none =>
      match store.find? (fun (l : Lead) => l.id = leadId && l.user_id = userId) with
      | none => .notFound "Lead not found"
      | some l =>
        let newEmail := match emailOpt with | some e => e | none => l.email
        if store.any (fun (x : Lead) => x.id ≠ leadId && x.email = newEmail) then
          .duplicate "A lead with this email already exists"
        else
          let l2 : Lead := { l with email := newEmail, rest := mergePayload l.rest body }
          .updated (store.map (fun (x : Lead) => if x.id = leadId then l2 else x)) l2

/-- JavaScript `parseInt(s)`: leading whitespace skipped, optional sign,
then the longest run of leading digits; `none` models NaN. -/
def jsParseInt (s : String) : Option Int :=
  let lead := fun (cs : List Char) =>
    let ds := cs.takeWhile Char.isDigit
    if ds.isEmpty then none else some ((decVal ds : Nat) : Int)
  match jsTrimmed s with
  | '+' :: cs => lead cs
  | '-' :: cs => (lead cs).map (fun n => -n)
  | cs => lead cs

/-- `parseInt(raw) || d` (routes/leads.js lines 153–154): an absent
parameter or a NaN parse — and also a parsed `0`, which is falsy — falls
back to the default. -/
def intOrDefault (raw : Option String) (d : Int) : Int :=
  match raw with
  | none => d
  | some s =>
    match jsParseInt s with
    | none => d
    | some n => if n = 0 then d else n

/-- `skip = (page - 1) * limit` (routes/leads.js line 155), for the
validated inputs `page ≥ 1`. -/
def skipOf (page limit : Nat) : Nat := (page - 1) * limit

/-- The pagination block of the GET / response. -/
structure PaginationMeta where
  page : Nat
  limit : Nat
  total : Nat
  totalPages : Nat
  hasNext : Bool
  hasPrev : Bool
deriving DecidableEq, Repr

/-- Pagination metadata as assembled at routes/leads.js lines 175–187:
`totalPages = Math.ceil(total / limit)` (written here in exact integer
form, `(total + limit - 1) / limit`, which agrees with the float
computation for every count the store can hold), `hasNext = page <
totalPages`, `hasPrev = page > 1`.  The requested page is echoed back
unchanged. -/
def paginationOf (page limit total : Nat) : PaginationMeta :=
  { page := page
    limit := limit
    total := total
    totalPages := (total + limit - 1) / limit
    hasNext := decide (page < (total + limit - 1) / limit)
    hasPrev := decide (1 < page) }

/-! ### Lemmas about the query-object operations -/

theorem getEntry_setEntry_ne {α : Type} (q : List (String × α)) (k k' : String)
    (v : α) (h : k' ≠ k) : getEntry (setEntry q k v) k' = getEntry q k' := by
  induction q with
  | nil => simp [setEntry, getEntry, Ne.symm h]
  | cons hd tl ih =>
    obtain ⟨k1, v1⟩ := hd
    by_cases hk : k1 = k
    · subst hk
      simp [setEntry, getEntry, Ne.symm h]
    · simp [setEntry, hk, getEntry, ih]

theorem splitOnChar_ne_nil (sep : Char) (cs : List Char) :
    splitOnChar sep cs ≠ [] := by
  cases cs with
  | nil => simp [splitOnChar]
  | cons c cs => unfold splitOnChar; split <;> simp

theorem headD_mem_of_ne_nil {α : Type} (l : List α) (d : α) (h : l ≠ []) :
    l.headD d ∈ l := by
  cases l with
  | nil => exact absurd rfl h
  | cons a t => simp

theorem sep_not_mem_splitOnChar (sep : Char) (cs : List Char) :
    ∀ seg ∈ splitOnChar sep cs, sep ∉ seg := by
  induction cs with
  | nil =>
    intro seg h
    simp [splitOnChar] at h
    subst h
    simp
  | cons c cs ih =>
    intro seg hseg
    unfold splitOnChar at hseg
    by_cases hc : c = sep
    · rw [if_pos hc] at hseg
      rcases List.mem_cons.mp hseg with h1 | h2
      · subst h1; simp
      · exact ih seg h2
    · rw [if_neg hc] at hseg
      rcases List.mem_cons.mp hseg with h1 | h2
      · subst h1
        intro hmem
        rcases List.mem_cons.mp hmem with h3 | h4
        · exact hc h3.symm
        · exact ih _ (headD_mem_of_ne_nil _ _ (splitOnChar_ne_nil sep cs)) h4
      · exact ih seg (List.mem_of_mem_tail h2)

theorem setFieldProp_getEntry_ne (q : Query) (field p : String) (v : Prim)
    (q' : Query) (k' : String) (h : setFieldProp q field p v = .ok q')
    (hne : k' ≠ field) : getEntry q' k' = getEntry q k' := by
  unfold setFieldProp at h
  cases hget : getEntry q field with
  | none =>
    rw [hget] at h
    injection h with h
    subst h
    exact getEntry_setEntry_ne _ _ _ _ hne
  | some fv =>
    rw [hget] at h
    cases hsp : setProp fv p v with
    | error e => simp [hsp, Except.map] at h
    | ok fv2 =>
      simp only [hsp, Except.map] at h
      injection h with h
      subst h
      exact getEntry_setEntry_ne _ _ _ _ hne

theorem getEntry_guard_ne (q : Query) (field k' : String) (h : k' ≠ field) :
    getEntry
      (if jsTruthy (getEntry q field) then q else setEntry q field (.obj [])) k'
      = getEntry q k' := by
  split
  · rfl
  · exact getEntry_setEntry_ne _ _ _ _ h

theorem bind_setFieldProp_getEntry_ne (q0 : Query) (field p1 p2 : String)
    (v1 v2 : Prim) (q' : Query) (k' : String)
    (h : (do
        let q2 ← setFieldProp q0 field p1 v1
        setFieldProp q2 field p2 v2) = Except.ok q')
    (hne : k' ≠ field) : getEntry q' k' = getEntry q0 k' := by
  cases hstep : setFieldProp q0 field p1 v1 with
  | error e =>
    rw [hstep] at h
    exact Except.noConfusion h
  | ok q2 =>
    rw [hstep] at h
    have h2 : setFieldProp q2 field p2 v2 = Except.ok q' := h
    rw [setFieldProp_getEntry_ne _ _ _ _ _ _ h2 hne,
      setFieldProp_getEntry_ne _ _ _ _ _ _ hstep hne]

/-- `applyFilter` only ever writes under the (underscore-free) first
underscore-segment of the filter key, or under an underscore-free bare
key; an entry whose key contains an underscore is therefore left intact. -/
theorem applyFilter_getEntry_underscore (q q' : Query) (key : String)
    (v : RawValue) (k' : String) (hk : '_' ∈ k'.toList)
    (h : applyFilter q key v = .ok q') : getEntry q' k' = getEntry q k' := by
  unfold applyFilter at h
  by_cases hc : '_' ∈ key.toList
  · rw [if_pos hc] at h
    have hfield : k' ≠ String.mk ((splitOnChar '_' key.toList).headD []) := by
      intro e
      have hmem : (splitOnChar '_' key.toList).headD [] ∈ splitOnChar '_' key.toList :=
        headD_mem_of_ne_nil _ _ (splitOnChar_ne_nil _ _)
      have hnm : '_' ∉ (splitOnChar '_' key.toList).headD [] :=
        sep_not_mem_splitOnChar _ _ _ hmem
      rw [e] at hk
      exact hnm hk
    dsimp only at h
    split at h
    all_goals
      first
        | exact (setFieldProp_getEntry_ne _ _ _ _ _ _ h hfield).trans
            (getEntry_guard_ne _ _ _ hfield)
        | (injection h with h
           subst h
           first
             | exact (getEntry_setEntry_ne _ _ _ _ hfield).trans
                 (getEntry_guard_ne _ _ _ hfield)
             | exact getEntry_guard_ne _ _ _ hfield)
        | (split at h <;>
            first
              | exact (bind_setFieldProp_getEntry_ne _ _ _ _ _ _ _ _ h hfield).trans
                  (getEntry_guard_ne _ _ _ hfield)
              | (injection h with h
                 subst h
                 exact getEntry_guard_ne _ _ _ hfield))
  · rw [if_neg hc] at h
    have hkey : k' ≠ key := by
      intro e
      rw [e] at hk
      exact hc hk
    split at h
    · injection h with h
      subst h
      exact getEntry_setEntry_ne _ _ _ _ hkey
    · injection h with h
      subst h
      rfl

/-- The fold inside `buildFilterQuery` preserves entries whose key contains
an underscore. -/
theorem foldl_applyFilter_getEntry_underscore
    (filters : List (String × RawValue)) (q0 q : Query) (k' : String)
    (hk : '_' ∈ k'.toList)
    (h : filters.foldlM (fun q kv => applyFilter q kv.1 kv.2) q0 = .ok q) :
    getEntry q k' = getEntry q0 k' := by
  induction filters generalizing q0 with
  | nil =>
    have h2 : Except.ok q0 = Except.ok q := h
    injection h2 with h2
    rw [h2]
  | cons hd tl ih =>
    cases hstep : applyFilter q0 hd.1 hd.2 with
    | error e =>
      have h2 : (applyFilter q0 hd.1 hd.2 >>= fun q1 =>
          tl.foldlM (fun q kv => applyFilter q kv.1 kv.2) q1) = Except.ok q := h
      rw [hstep] at h2
      exact Except.noConfusion h2
    | ok q1 =>
      have h2 : (applyFilter q0 hd.1 hd.2 >>= fun q1 =>
          tl.foldlM (fun q kv => applyFilter q kv.1 kv.2) q1) = Except.ok q := h
      rw [hstep] at h2
      have h3 : tl.foldlM (fun q kv => applyFilter q kv.1 kv.2) q1 = Except.ok q := h2
      rw [ih q1 h3, applyFilter_getEntry_underscore q0 q1 hd.1 hd.2 k' hk hstep]

/-- Evaluating `buildFilterQuery` on one filter parameter reduces to one
`applyFilter` step on the owner-seeded query. -/
theorem buildFilterQuery_singleton (k : String) (v : RawValue) (uid : Nat)
    (q' : Query)
    (h : applyFilter [("user_id", .prim (.oid uid))] k v = .ok q') :
    buildFilterQuery [(k, v)] uid = .ok q' := by
  have h2 : buildFilterQuery [(k, v)] uid =
      (applyFilter [("user_id", .prim (.oid uid))] k v >>= fun q1 => pure q1) := rfl
  rw [h2, h]
  rfl

/-! ### The claims -/

/-- C2: for every set of raw filter parameters and requesting owner, a
successfully compiled predicate carries the `user_id` equality clause for
that owner — no caller-supplied filter key can remove or override it —
and `score_gt=50` compiles to exactly the owner clause plus
`score: {$gt: 50}`. -/
theorem filterQuery_owner_scoped :
    (∀ (filters : List (String × RawValue)) (uid : Nat) (q : Query),
        buildFilterQuery filters uid = .ok q →
        getEntry q "user_id" = some (.prim (.oid uid)))
    ∧ ∀ uid : Nat,
        buildFilterQuery [("score_gt", .str "50")] uid =
          .ok [("user_id", .prim (.oid uid)),
               ("score", .obj [("$gt", .num (some 50))])] := by
  constructor
  · intro filters uid q h
    have hpres := foldl_applyFilter_getEntry_underscore filters
      [("user_id", .prim (.oid uid))] q "user_id" (by decide) h
    rw [hpres]
    rfl
  · intro uid
    rfl

/-- Witness for C2 at a concrete filter set and owner. -/
theorem filterQuery_owner_scoped_witness :
    getEntry [("user_id", FieldVal.prim (Prim.oid 7)),
              ("score", FieldVal.obj [("$gt", Prim.num (some 50))])] "user_id"
      = some (FieldVal.prim (Prim.oid 7)) :=
  filterQuery_owner_scoped.1 [("score_gt", .str "50")] 7
    [("user_id", .prim (.oid 7)), ("score", .obj [("$gt", .num (some 50))])] rfl

/-- C3 counterexample: the unknown-operator key `foo_bar` does NOT compile
to the same predicate as an absent parameter — it leaves the empty clause
`foo: {}` in the query. -/
theorem unknown_operator_leaks_empty_clause :
    buildFilterQuery [("foo_bar", RawValue.str "1")] 7 =
      .ok [("user_id", .prim (.oid 7)), ("foo", .obj [])] ∧
    buildFilterQuery [] 7 = .ok [("user_id", .prim (.oid 7))] ∧
    ([("user_id", FieldVal.prim (Prim.oid 7)), ("foo", FieldVal.obj [])] : Query)
      ≠ [("user_id", FieldVal.prim (Prim.oid 7))] :=
  ⟨rfl, rfl, by decide⟩

/-- C3 amended: the compiler never raises for an unknown key; a bare key
outside the `status`/`source`/`is_qualified` whitelist contributes
nothing, but a key with an unrecognized operator suffix contributes an
EMPTY clause under the first underscore-segment of the key (the field
name itself is never validated against the schema). -/
theorem unknown_filter_keys_amended :
    (∀ (k : String) (v : RawValue) (uid : Nat),
        '_' ∉ k.toList → k ≠ "status" → k ≠ "source" → k ≠ "is_qualified" →
        buildFilterQuery [(k, v)] uid = buildFilterQuery [] uid)
    ∧ ∀ (v : RawValue) (uid : Nat),
        buildFilterQuery [("foo_bar", v)] uid =
          .ok [("user_id", .prim (.oid uid)), ("foo", .obj [])] := by
  constructor
  · intro k v uid h1 h2 h3 h4
    have happ : applyFilter [("user_id", FieldVal.prim (Prim.oid uid))] k v =
        .ok [("user_id", FieldVal.prim (Prim.oid uid))] := by
      unfold applyFilter
      rw [if_neg h1, if_neg (by simp [h2, h3, h4])]
    rw [buildFilterQuery_singleton k v uid _ happ]
    rfl
  · intro v uid
    have happ : applyFilter [("user_id", FieldVal.prim (Prim.oid uid))] "foo_bar" v =
        .ok [("user_id", FieldVal.prim (Prim.oid uid)), ("foo", FieldVal.obj [])] := rfl
    exact buildFilterQuery_singleton _ v uid _ happ

/-- Witness for the amended C3 at a concrete mistyped key. -/
theorem unknown_filter_keys_amended_witness :
    buildFilterQuery [("mistyped", RawValue.str "x")] 7 = buildFilterQuery [] 7 :=
  unknown_filter_keys_amended.1 "mistyped" (.str "x") 7
    (by decide) (by decide) (by decide) (by decide)

/-- C4: `created_at_on=2024-01-15` does NOT compile to a day interval on
`created_at` — the key is split at every underscore and only the first
two segments are kept, so the field becomes `created` with unknown
operator `at`, leaving the inert empty clause `created: {}` and no
constraint at all on `created_at`. -/
theorem created_at_on_truncated_eval :
    buildFilterQuery [("created_at_on", RawValue.str "2024-01-15")] 7 =
      .ok [("user_id", .prim (.oid 7)), ("created", .obj [])] ∧
    getEntry [("user_id", FieldVal.prim (Prim.oid 7)),
              ("created", FieldVal.obj [])] "created_at" = none :=
  ⟨rfl, rfl⟩

/-- C5: the bare key `is_qualified=true` contains an underscore, so it is
parsed as field `is` with unknown operator `qualified` and compiles to
the inert clause `is: {}` — it does not filter on `is_qualified` at all —
while `email_contains=corp` does compile to a case-insensitive regex on
`email`. -/
theorem is_qualified_bare_key_eval :
    buildFilterQuery [("is_qualified", RawValue.str "true")] 7 =
      .ok [("user_id", .prim (.oid 7)), ("is", .obj [])] ∧
    buildFilterQuery [("email_contains", RawValue.str "corp")] 7 =
      .ok [("user_id", .prim (.oid 7)),
           ("email", .obj [("$regex", .str "corp"), ("$options", .str "i")])] :=
  ⟨rfl, rfl⟩

/-- C6 counterexample: `score_gt=abc` has a failed numeric parse
(`Number("abc")` is NaN), yet the compiler succeeds and embeds the NaN
sentinel in the `$gt` clause instead of failing with any error. -/
theorem nan_sentinel_accepted :
    buildFilterQuery [("score_gt", RawValue.str "abc")] 7 =
      .ok [("user_id", .prim (.oid 7)), ("score", .obj [("$gt", .num none)])] ∧
    jsNumber "abc" = none :=
  ⟨rfl, rfl⟩

/-- C6 amended: a numeric-operator value that fails to parse is silently
embedded as NaN, and a date-operator value that fails to parse is
silently embedded as an Invalid Date; the compiler never reports a
filter error for them. -/
theorem parse_failures_embedded_as_sentinels :
    ∀ (s t : String) (uid : Nat), jsNumber s = none → jsDate t = none →
      buildFilterQuery [("score_gt", RawValue.str s)] uid =
        .ok [("user_id", .prim (.oid uid)), ("score", .obj [("$gt", .num none)])] ∧
      buildFilterQuery [("created_before", RawValue.str t)] uid =
        .ok [("user_id", .prim (.oid uid)), ("created", .obj [("$lt", .date none)])] := by
  intro s t uid hs ht
  constructor
  · refine buildFilterQuery_singleton _ _ uid _ ?_
    unfold applyFilter
    rw [if_pos (by decide)]
    dsimp only
    show setFieldProp _ "score" "$gt" (.num (jsNumberR (.str s))) = _
    rw [show jsNumberR (.str s) = none from by simpa [jsNumberR] using hs]
    rfl
  · refine buildFilterQuery_singleton _ _ uid _ ?_
    unfold applyFilter
    rw [if_pos (by decide)]
    dsimp only
    show setFieldProp _ "created" "$lt" (.date (jsDateR (.str t))) = _
    rw [show jsDateR (.str t) = none from by simpa [jsDateR] using ht]
    rfl

/-- Witness for the amended C6 at concrete unparseable values. -/
theorem parse_failures_embedded_as_sentinels_witness :
    buildFilterQuery [("score_gt", RawValue.str "abc")] 9 =
      .ok [("user_id", .prim (.oid 9)), ("score", .obj [("$gt", .num none)])] ∧
    buildFilterQuery [("created_before", RawValue.str "not-a-date")] 9 =
      .ok [("user_id", .prim (.oid 9)), ("created", .obj [("$lt", .date none)])] :=
  parse_failures_embedded_as_sentinels "abc" "not-a-date" 9 rfl rfl

/-- C10: filter keys are split at every underscore and only the first two
segments are used as field name and operator, so no compiled predicate
ever carries a clause under a schema field whose own name contains an
underscore; the clause, if any, lands on the truncated first segment
(`lead_value_gt` on `lead`, `last_activity_at_before` on `last`). -/
theorem underscore_fields_never_filtered :
    (∀ (filters : List (String × RawValue)) (uid : Nat) (q : Query),
        buildFilterQuery filters uid = .ok q →
        ∀ f : String,
          f ∈ ["lead_value", "is_qualified", "last_activity_at",
               "created_at", "first_name", "last_name"] →
          getEntry q f = none)
    ∧ (∀ uid : Nat,
        buildFilterQuery [("lead_value_gt", .str "100")] uid =
          .ok [("user_id", .prim (.oid uid)), ("lead", .obj [])])
    ∧ ∀ uid : Nat,
        buildFilterQuery [("last_activity_at_before", .str "2024-01-15")] uid =
          .ok [("user_id", .prim (.oid uid)), ("last", .obj [])] := by
  refine ⟨?_, fun uid => rfl, fun uid => rfl⟩
  intro filters uid q h f hf
  have hu : '_' ∈ f.toList := by
    fin_cases hf <;> decide
  have hpres := foldl_applyFilter_getEntry_underscore filters
    [("user_id", .prim (.oid uid))] q f hu h
  rw [hpres]
  fin_cases hf <;> rfl

/-- Witness for C10 at a concrete filter set and field. -/
theorem underscore_fields_never_filtered_witness :
    getEntry [("user_id", FieldVal.prim (Prim.oid 5)),
              ("email", FieldVal.obj [("$regex", Prim.str "x"),
                                      ("$options", Prim.str "i")])] "lead_value"
      = none :=
  underscore_fields_never_filtered.1 [("email_contains", .str "x")] 5
    [("user_id", .prim (.oid 5)),
     ("email", .obj [("$regex", .str "x"), ("$options", .str "i")])]
    rfl "lead_value" (by decide)

/-- A payload that passes every chain of `leadValidation`. -/
def samplePayload : LeadPayload :=
  { first_name := some "Ann", last_name := some "Lee",
    email := some "ann@corp.com", phone := some "+1234567",
    company := some "Corp", city := some "Pune", state := some "MH",
    source := some "website" }

/-- A stored lead of owner 1 holding the sample email. -/
def sampleLead : Lead :=
  { id := 10, user_id := 1, email := "ann@corp.com", rest := samplePayload }

/-- A store with two leads of owner 1 and one lead of owner 3. -/
def sampleStore : List Lead :=
  [sampleLead,
   { id := 11, user_id := 1, email := "bob@corp.com", rest := samplePayload },
   { id := 12, user_id := 3, email := "carol@corp.com", rest := samplePayload }]

/-- C1: with owner 1 already holding a lead with email `ann@corp.com`, a
validated create of that email fails for owner 1 (the owner-scoped
pre-check) but ALSO fails for the different owner 2: the pre-check passes,
and `save()` then violates the unique index on `email` alone, which the
route maps to the same 400 duplicate response — contradicting the claim
that a different owner can hold the same email. -/
theorem crossOwner_duplicate_email_rejected :
    postLeads [sampleLead] 2 11 samplePayload =
      .duplicate "A lead with this email already exists" ∧
    postLeads [sampleLead] 1 11 samplePayload =
      .duplicate "A lead with this email already exists" ∧
    leadValidationErrors samplePayload = [] :=
  ⟨rfl, rfl, rfl⟩

/-- C7 counterexample: a PUT payload with `first_name` absent does NOT pass
validation — the PUT route runs the same required-field chains as POST
and answers 400 instead of treating the field as unchanged. -/
theorem put_requires_first_name :
    putLeads [sampleLead] 1 10 { samplePayload with first_name := none } =
      .validationFailed ["First name is required"] :=
  rfl

/-- C7 amended: required-ness is enforced on both paths — any payload with
`first_name` absent is rejected by PUT with the same validation response
POST gives. -/
theorem put_validation_same_as_post :
    ∀ (store : List Lead) (uid leadId newId : Nat) (p : LeadPayload),
      p.first_name = none →
      putLeads store uid leadId p = .validationFailed (leadValidationErrors p) ∧
      postLeads store uid newId p = .validationFailed (leadValidationErrors p) ∧
      "First name is required" ∈ leadValidationErrors p := by
  intro store uid leadId newId p hp
  have h1 : requiredTrimmed p.first_name 50 "First name is required"
      "First name cannot exceed 50 characters" = ["First name is required"] := by
    rw [hp]
    rfl
  have hmem : "First name is required" ∈ leadValidationErrors p := by
    unfold leadValidationErrors
    rw [h1]
    simp
  have hne : leadValidationErrors p ≠ [] := by
    intro h0
    rw [h0] at hmem
    exact List.not_mem_nil _ hmem
  refine ⟨?_, ?_, hmem⟩
  · simp only [putLeads]
    rw [if_pos hne]
  · simp only [postLeads]
    rw [if_pos hne]

/-- Witness for the amended C7 at a concrete store and payload. -/
theorem put_validation_same_as_post_witness :
    putLeads [sampleLead] 1 10 { samplePayload with first_name := none } =
        .validationFailed
          (leadValidationErrors { samplePayload with first_name := none }) ∧
      postLeads [sampleLead] 1 11 { samplePayload with first_name := none } =
        .validationFailed
          (leadValidationErrors { samplePayload with first_name := none }) ∧
      "First name is required" ∈
        leadValidationErrors { samplePayload with first_name := none } :=
  put_validation_same_as_post [sampleLead] 1 10 11
    { samplePayload with first_name := none } rfl

/-- C8 counterexample: on the update path the duplicate detected by the
pre-check and the duplicate detected by the storage constraint carry
DIFFERENT user-visible messages. -/
theorem duplicate_messages_differ_on_put :
    putLeads sampleStore 1 10 { samplePayload with email := some "bob@corp.com" } =
      .duplicate "Another lead with this email already exists" ∧
    putLeads sampleStore 1 10 { samplePayload with email := some "carol@corp.com" } =
      .duplicate "A lead with this email already exists" ∧
    "Another lead with this email already exists" ≠
      "A lead with this email already exists" :=
  ⟨rfl, rfl, by decide⟩

/-- C8 amended: on the create path both detection layers answer with the one
fixed message, while on the update path every duplicate response carries
one of two fixed messages — "Another lead with this email already exists"
from the pre-check, "A lead with this email already exists" from the
storage-constraint handler — which are not identical. -/
theorem duplicate_message_catalogue :
    (∀ (store : List Lead) (uid newId : Nat) (body : LeadPayload) (m : String),
        postLeads store uid newId body = .duplicate m →
        m = "A lead with this email already exists")
    ∧ ∀ (store : List Lead) (uid leadId : Nat) (body : LeadPayload) (m : String),
        putLeads store uid leadId body = .duplicate m →
        m = "Another lead with this email already exists" ∨
          m = "A lead with this email already exists" := by
  constructor
  · intro store uid newId body m h
    simp only [postLeads] at h
    split at h
    · exact WriteResult.noConfusion h
    · split at h
      · injection h with h1
        exact h1.symm
      · split at h
        · split at h
          · injection h with h1
            exact h1.symm
          · exact WriteResult.noConfusion h
        · exact WriteResult.noConfusion h
  · intro store uid leadId body m h
    simp only [putLeads] at h
    split at h
    · exact WriteResult.noConfusion h
    · split at h
      · injection h with h1
        exact Or.inl h1.symm
      · split at h
        · exact WriteResult.noConfusion h
        · split at h
          · injection h with h1
            exact Or.inr h1.symm
          · exact WriteResult.noConfusion h

/-- Witness for the amended C8 at a concrete duplicate update. -/
theorem duplicate_message_catalogue_witness :
    "Another lead with this email already exists" =
        "Another lead with this email already exists" ∨
      "Another lead with this email already exists" =
        "A lead with this email already exists" :=
  duplicate_message_catalogue.2 sampleStore 1 10
    { samplePayload with email := some "bob@corp.com" }
    "Another lead with this email already exists" rfl

/-- C9: for validated inputs (`page ≥ 1`, `1 ≤ limit ≤ 100`) and any total,
the route computes `skip = (page-1)*limit`; `totalPages` is the exact
ceiling of `total/limit` — `total` fits in `totalPages` pages and, when
`total > 0`, not in one page fewer — and is 0 when `total` is 0;
`hasNext = page < totalPages`; `hasPrev = page > 1`; a page beyond
`totalPages` is echoed back unclamped with `hasNext = false`; absent
`page`/`limit` parameters default to 1 and 20. -/
theorem pagination_contract :
    ∀ page limit total : Nat, 1 ≤ page → 1 ≤ limit → limit ≤ 100 →
      (paginationOf page limit total).page = page ∧
      (paginationOf page limit total).limit = limit ∧
      (paginationOf page limit total).total = total ∧
      skipOf page limit = (page - 1) * limit ∧
      total ≤ (paginationOf page limit total).totalPages * limit ∧
      (total = 0 → (paginationOf page limit total).totalPages = 0) ∧
      (0 < total →
        ((paginationOf page limit total).totalPages - 1) * limit < total) ∧
      (paginationOf page limit total).hasNext =
        decide (page < (paginationOf page limit total).totalPages) ∧
      (paginationOf page limit total).hasPrev = decide (1 < page) ∧
      ((paginationOf page limit total).totalPages < page →
        (paginationOf page limit total).hasNext = false) ∧
      intOrDefault none 1 = 1 ∧ intOrDefault none 20 = 20 := by
  intro page limit total h1 h2 h3
  have h2' : 0 < limit := h2
  refine ⟨rfl, rfl, rfl, rfl, ?_, ?_, ?_, rfl, rfl, ?_, rfl, rfl⟩
  · have key : total + limit - 1 ≤ limit * ((total + limit - 1) / limit) + (limit - 1) :=
      (Nat.div_le_iff_le_mul_add_pred h2').mp (Nat.le_refl _)
    have hcomm : limit * ((total + limit - 1) / limit) =
        ((total + limit - 1) / limit) * limit := Nat.mul_comm _ _
    show total ≤ (total + limit - 1) / limit * limit
    omega
  · intro h0
    show (total + limit - 1) / limit = 0
    subst h0
    exact Nat.div_eq_of_lt (by omega)
  · intro hpos
    have hdml : (total + limit - 1) / limit * limit ≤ total + limit - 1 :=
      Nat.div_mul_le_self _ _
    have hsub : ((total + limit - 1) / limit - 1) * limit =
        (total + limit - 1) / limit * limit - 1 * limit := Nat.sub_mul _ _ _
    show ((total + limit - 1) / limit - 1) * limit < total
    omega
  · intro h4
    have h4' : (total + limit - 1) / limit < page := h4
    show decide (page < (total + limit - 1) / limit) = false
    simp only [decide_eq_false_iff_not]
    omega

/-- Witness for C9 at `page = 3`, `limit = 20`, `total = 45`. -/
theorem pagination_contract_witness :
    (paginationOf 3 20 45).page = 3 ∧
      (paginationOf 3 20 45).limit = 20 ∧
      (paginationOf 3 20 45).total = 45 ∧
      skipOf 3 20 = (3 - 1) * 20 ∧
      45 ≤ (paginationOf 3 20 45).totalPages * 20 ∧
      (45 = 0 → (paginationOf 3 20 45).totalPages = 0) ∧
      (0 < 45 → ((paginationOf 3 20 45).totalPages - 1) * 20 < 45) ∧
      (paginationOf 3 20 45).hasNext =
        decide (3 < (paginationOf 3 20 45).totalPages) ∧
      (paginationOf 3 20 45).hasPrev = decide (1 < 3) ∧
      ((paginationOf 3 20 45).totalPages < 3 →
        (paginationOf 3 20 45).hasNext = false) ∧
      intOrDefault none 1 = 1 ∧ intOrDefault none 20 = 20 :=
  pagination_contract 3 20 45 (by decide) (by decide) (by decide)

end LeadManagement
